import Mathlib

/-!
Verification development for the Midas MIDI dispatch core: a shallow
embedding of the event model (`app/midi/events.py`), control profiles
(`app/midi/profiles.py`), the node graph (`app/nodes/graph.py`,
`app/nodes/base.py`), the value-mapping algorithm and dispatch engine
(`app/actions/engine.py`), and the five action handlers
(`app/actions/{volume,command,script,shortcut,sound}.py`).

Modelling conventions:
* Python `float` arithmetic in the mapper and the volume computation is
  embedded over `ℚ`.  Python's `round` (round-half-to-even on a float) is
  embedded as `pyRound` over `ℚ`.  The two transcendental curve branches of
  `_apply_mapper` (`math.log1p`, `math.e**x`) have no exact rational form;
  the engine is therefore parametrised over the pair of curve maps
  (`Curves`), and no theorem below depends on their numeric values.
* External-system interaction (process spawning, the audio backend, the
  key-simulation utility, audio playback, `exec` of a script snippet) is
  modelled at the call boundary: each such call is recorded as an
  `Effect` value.  Filesystem and `shutil.which` lookups used by the sound
  and shortcut actions are supplied by a `SysEnv` parameter.
* Python dicts are modelled as insertion-ordered association lists with
  update-in-place-or-append semantics (`dictSet`/`dictGet`).
* `node.config` (an open `Dict[str, object]` read defensively with
  defaults) is modelled as a record of optional typed fields, `none`
  meaning "key absent"; integer/float coercions done by the readers
  (`_coerce_optional_int`, `_safe_int`, `_safe_float`) are reflected in
  the field types.
-/

namespace Midas

/-- Model of `MidiEvent` (`app/midi/events.py`): normalized representation of a MIDI
message.  The opaque `raw` field (the underlying `mido` message) is not
modelled; no code in the core reads it. -/
structure MidiEvent where
  message_type : String
  channel : Option Int
  control : Option Int
  value : Option Int
  note : Option Int
  velocity : Option Int
  source : Option String := none
  aliases : List String := []
deriving Repr, DecidableEq

/-- Model of `ControlProfile` (`app/midi/profiles.py`). -/
structure ControlProfile where
  id : String
  name : String
  device_port : String
  message_type : String
  control_type : String
  channel : Option Int
  control : Option Int
  note : Option Int
  aliases : List String := []
deriving Repr, DecidableEq

/-- Model of `ControlProfile.matches_event` (`app/midi/profiles.py`, lines 27-38):
the sequence of early-return guards. -/
def ControlProfile.matchesEvent (p : ControlProfile) (e : MidiEvent) : Bool :=
  if e.source != some p.device_port && !(e.aliases.contains p.device_port) then false
  else if e.message_type != p.message_type then false
  else if p.channel.isSome && e.channel != p.channel then false
  else if p.control.isSome && e.control != p.control then false
  else if p.note.isSome && e.note != p.note then false
  else true

/-- Python-dict lookup on an association list (first matching key). -/
def dictGet {β : Type} (l : List (String × β)) (k : String) : Option β :=
  match l.find? (fun kv => kv.1 == k) with
  | some kv => some kv.2
  | none => none

/-- Python-dict assignment on an association list: replace the value in
place when the key is present, else append. -/
def dictSet {β : Type} (l : List (String × β)) (k : String) (v : β) :
    List (String × β) :=
  if l.any (fun kv => kv.1 == k) then
    l.map (fun kv => if kv.1 == k then (k, v) else kv)
  else l ++ [(k, v)]

/-- Model of `ControlProfileStore` (`app/midi/profiles.py`): a dict `id → profile`. -/
structure ControlProfileStore where
  profiles : List (String × ControlProfile)
deriving Repr, DecidableEq

/-- Model of `ControlProfileStore.get`. -/
def ControlProfileStore.get (s : ControlProfileStore) (pid : String) :
    Option ControlProfile :=
  dictGet s.profiles pid

/-- One plain record handed to `ControlProfileStore.load`: `none` for the
four required fields models a missing dict key (a `KeyError` in the
source); `channel`/`control`/`note` carry the result of
`_coerce_optional_int`, and `control_type` the result of
`entry.get("control_type", "")` (`none` = key absent). -/
structure ProfileRecord where
  id : Option String
  name : Option String
  device_port : Option String
  message_type : Option String
  control_type : Option String := none
  channel : Option Int := none
  control : Option Int := none
  note : Option Int := none
  aliases : List String := []
deriving Repr, DecidableEq

/-- The body of the `try` block in `ControlProfileStore.load`
(`app/midi/profiles.py`, lines 112-129): build a profile from a record,
`none` when a required field is missing (the `KeyError` path). -/
def loadRecord (entry : ProfileRecord) : Option ControlProfile :=
  match entry.id, entry.name, entry.device_port, entry.message_type with
  | some i, some n, some dp, some mt =>
      some
        { id := i, name := n, device_port := dp, message_type := mt
          control_type := entry.control_type.getD ""
          channel := entry.channel, control := entry.control
          note := entry.note, aliases := entry.aliases }
  | _, _, _, _ => none

/-- Model of `ControlProfileStore.load`: `clear()` followed by keyed insertion of
every successfully parsed record. -/
def ControlProfileStore.load (_s : ControlProfileStore)
    (data : List ProfileRecord) : ControlProfileStore :=
  ⟨data.foldl
    (fun acc entry =>
      match loadRecord entry with
      | some p => dictSet acc p.id p
      | none => acc)
    []⟩

/-- Specification-side description of "a later record overwrites an earlier
one of the same id": the last profile in the list carrying the given id. -/
def specLastWithId (pid : String) : List ControlProfile → Option ControlProfile
  | [] => none
  | p :: rest =>
      match specLastWithId pid rest with
      | some q => some q
      | none => if p.id == pid then some p else none

/-! ## Node graph (`app/nodes/base.py`, `app/nodes/graph.py`) -/

/-- Model of `NodePortDirection` (`app/nodes/base.py`). -/
inductive NodePortDirection where
  | input
  | output
deriving Repr, DecidableEq

/-- Model of `NodePort` (`app/nodes/base.py`). -/
structure NodePort where
  name : String
  direction : NodePortDirection
  data_type : String := "any"
deriving Repr, DecidableEq

/-- A `command`/`args` config entry of the command action may hold either a
shell string or an argv list (`_ensure_sequence` in
`app/actions/command.py` accepts both). -/
inductive StrOrList where
  | str (s : String)
  | list (l : List String)
deriving Repr, DecidableEq

/-- Model of `node.config`: the open `Dict[str, object]` of `app/nodes/base.py`,
restricted to the keys the core reads, each as an optional typed field
(`none` = key absent; readers substitute their defaults). -/
structure NodeConfig where
  position : Option (ℚ × ℚ) := none
  input_min : Option ℚ := none
  input_max : Option ℚ := none
  output_min : Option ℚ := none
  output_max : Option ℚ := none
  curve : Option String := none
  steps : Option Int := none
  device_ports : List String := []
  profile_id : Option String := none
  command : Option StrOrList := none
  args : Option StrOrList := none
  cwd : Option String := none
  shell : Bool := false
  target_id : Option String := none
  target_kind : Option String := none
  sequence : Option String := none
  script : Option String := none
  file : Option String := none
  path : Option String := none
  volume : Option ℚ := none
  trigger_value : Option Int := none
  min_value : Option Int := none
  trigger_on_note_off : Bool := false
deriving Repr, DecidableEq

/-- Model of `Node` (`app/nodes/base.py`). -/
structure Node where
  id : String
  type : String
  title : String
  inputs : List NodePort := []
  outputs : List NodePort := []
  config : NodeConfig := {}
deriving Repr, DecidableEq

/-- Model of `NodeConnection` (`app/nodes/graph.py`). -/
structure NodeConnection where
  source_node : String
  source_port : String
  target_node : String
  target_port : String
deriving Repr, DecidableEq

/-- Model of `NodeGroup` (`app/nodes/graph.py`). -/
structure NodeGroup where
  id : String
  title : String := "Group"
  node_ids : List String := []
  position : ℚ × ℚ := (0, 0)
  size : ℚ × ℚ := (240, 180)
  collapsed : Bool := false
deriving Repr, DecidableEq

/-- Model of `NodeGraph` (`app/nodes/graph.py`): dicts of nodes and groups plus the
connection list. -/
structure NodeGraph where
  nodes : List (String × Node) := []
  connections : List NodeConnection := []
  groups : List (String × NodeGroup) := []
deriving Repr, DecidableEq

namespace NodeGraph

/-- Model of `NodeGraph.add_node` (including the `position` config default). -/
def addNode (g : NodeGraph) (node : Node) : NodeGraph :=
  let node :=
    { node with
      config := { node.config with position := some (node.config.position.getD (0, 0)) } }
  { g with nodes := dictSet g.nodes node.id node }

/-- Model of `NodeGraph.remove_node`: drop the node, every touching connection, the
node's group memberships, and any group this leaves empty. -/
def removeNode (g : NodeGraph) (node_id : String) : NodeGraph :=
  { nodes := g.nodes.filter (fun kv => kv.1 != node_id)
    connections :=
      g.connections.filter
        (fun c => c.source_node != node_id && c.target_node != node_id)
    groups :=
      g.groups.filterMap (fun kv =>
        if kv.2.node_ids.contains node_id then
          let rest := kv.2.node_ids.filter (fun nid => nid != node_id)
          if rest.isEmpty then none else some (kv.1, { kv.2 with node_ids := rest })
        else some kv) }

/-- Model of `NodeGraph.get_node`. -/
def getNode (g : NodeGraph) (node_id : String) : Option Node :=
  dictGet g.nodes node_id

/-- Model of `NodeGraph.get_port`: first port named `port_name` among the node's
inputs followed by its outputs. -/
def getPort (g : NodeGraph) (node_id port_name : String) : Option NodePort :=
  match getNode g node_id with
  | none => none
  | some node => (node.inputs ++ node.outputs).find? (fun p => p.name == port_name)

/-- Model of `NodeGraph._is_compatible`. -/
def isCompatible (source target : NodePort) : Bool :=
  source.data_type == "any" || target.data_type == "any"
    || source.data_type == target.data_type

/-- Model of `NodeGraph._find_connection`. -/
def findConnection (g : NodeGraph) (sn sp tn tp : String) :
    Option NodeConnection :=
  g.connections.find? (fun c =>
    c.source_node == sn && c.source_port == sp
      && c.target_node == tn && c.target_port == tp)

/-- Model of `NodeGraph.can_connect` (`app/nodes/graph.py`, lines 71-108): the checks
in source order, returning the first failing reason. -/
def canConnect (g : NodeGraph) (sn sp tn tp : String) : Bool × Option String :=
  if sn == tn then (false, some "Cannot connect a node to itself.")
  else
    match getPort g sn sp, getPort g tn tp with
    | some source, some target =>
      if source.direction != NodePortDirection.output then
        (false, some "Source port must be an output.")
      else if target.direction != NodePortDirection.input then
        (false, some "Target port must be an input.")
      else if !isCompatible source target then
        (false, some "Incompatible port data types.")
      else if (findConnection g sn sp tn tp).isSome then
        (false, some "Connection already exists.")
      else if g.connections.any (fun c => c.target_node == tn && c.target_port == tp) then
        (false, some "Target port already has an incoming connection.")
      else (true, none)
    | _, _ => (false, some "One of the ports does not exist.")

/-- Model of `NodeGraph.connect`: append the edge iff `can_connect` approves; the
boolean result is paired with the (possibly updated) graph. -/
def connect (g : NodeGraph) (sn sp tn tp : String) : Bool × NodeGraph :=
  if (canConnect g sn sp tn tp).1 then
    (true, { g with connections := g.connections ++ [⟨sn, sp, tn, tp⟩] })
  else (false, g)

/-- Model of `NodeGraph.connections_from` with an optional port filter. -/
def connectionsFrom (g : NodeGraph) (node_id : String)
    (port_name : Option String := none) : List NodeConnection :=
  g.connections.filter (fun c =>
    c.source_node == node_id
      && (port_name.isNone || port_name == some c.source_port))

/-- Model of `NodeGraph.incoming`. -/
def incoming (g : NodeGraph) (node_id : String) : List NodeConnection :=
  g.connections.filter (fun c => c.target_node == node_id)

/-- Model of `NodeGraph.is_empty`. -/
def isEmpty (g : NodeGraph) : Bool :=
  g.nodes.isEmpty

/-- The node objects of the graph in insertion order
(`self._nodes.values()`). -/
def nodeValues (g : NodeGraph) : List Node :=
  g.nodes.map Prod.snd

end NodeGraph

/-! ## Value mapping (`ActionEngine._apply_mapper`, `app/actions/engine.py`
lines 97-123) -/

/-- Python's built-in `round` on a number with no `ndigits`: round half to
even, embedded over `ℚ`. -/
def pyRound (q : ℚ) : ℤ :=
  let n := ⌊q⌋
  let frac := q - (n : ℚ)
  if frac < 1 / 2 then n
  else if 1 / 2 < frac then n + 1
  else if 2 ∣ n then n else n + 1

/-- Python `int()` truncation toward zero, embedded over `ℚ`. -/
def pyInt (q : ℚ) : ℤ :=
  if 0 ≤ q then ⌊q⌋ else ⌈q⌉

/-- Python's `str.lower()` on the curve tag, embedded as a character map
(structural recursion, so concrete configurations evaluate in proofs; the
tags the source compares against are ASCII). -/
def lowerString (s : String) : String :=
  String.mk (s.data.map Char.toLower)

/-- The two transcendental curve branches of `_apply_mapper`
(`math.log1p(normalized * (math.e - 1))` and
`(math.e ** normalized - 1) / (math.e - 1)`) are float computations with no
exact rational embedding; the engine is parametrised over them.  No theorem
in this development depends on their numeric values. -/
structure Curves where
  log : ℚ → ℚ
  exp : ℚ → ℚ

/-- The identity instantiation of `Curves`, used for concrete evaluation. -/
def idCurves : Curves := ⟨id, id⟩

/-- Model of `ActionEngine._apply_mapper`: normalize into `[0, 1]`, apply the curve,
rescale to the output bounds, clamp and round; only `value` is replaced
(`dataclasses.replace`), and a `None` value passes the event through. -/
def applyMapper (curves : Curves) (cfg : NodeConfig) (e : MidiEvent) : MidiEvent :=
  match e.value with
  | none => e
  | some v =>
    let input_min := cfg.input_min.getD 0
    let input_max := cfg.input_max.getD 127
    let output_min := cfg.output_min.getD 0
    let output_max := cfg.output_max.getD 127
    let curve := lowerString (cfg.curve.getD "linear")
    let value : ℚ := (v : ℚ)
    let normalized := (value - input_min) / max 1 (input_max - input_min)
    let normalized := max 0 (min 1 normalized)
    let normalized :=
      if curve == "log" then curves.log normalized
      else if curve == "exp" then curves.exp normalized
      else if curve == "step" then
        let steps := max 1 (cfg.steps.getD 8)
        (pyRound (normalized * (steps : ℚ)) : ℚ) / (steps : ℚ)
      else normalized
    let mapped := output_min + normalized * (output_max - output_min)
    let clamped := pyRound (max output_min (min output_max mapped))
    { e with value := some clamped }

/-! ## Actions (`app/actions/*.py`)

Each handler is embedded as a pure function from its configuration, the
event, and its instance state to an optional recorded `Effect` plus the
updated state.  The `Effect` boundary sits exactly at the source's external
calls: `SystemVolumeController.set_level`, `subprocess.Popen`,
`subprocess.run`, `exec`, and `_SoundPlayer.play`. -/

/-- External-system calls recorded by the action handlers. -/
inductive Effect where
  /-- Model of `VolumeAction`: `self._controller.set_level(level, target_id, target_kind)`. -/
  | setLevel (level : ℚ) (target_id : Option String) (target_kind : String)
  /-- Model of `CommandAction`, shell form: `subprocess.Popen(command_str, shell=True, ...)`. -/
  | spawnShell (command : String) (cwd : Option String) (env : List (String × String))
  /-- Model of `CommandAction`, argv form: `subprocess.Popen(list(base_command), ...)`. -/
  | spawnArgv (argv : List String) (cwd : Option String) (env : List (String × String))
  /-- Model of `ScriptAction`: `exec(script, ...)`. -/
  | execScript (script : String)
  /-- Model of `ShortcutAction`: `subprocess.run(["xdotool", "key", sequence], ...)`. -/
  | runShortcut (sequence : String)
  /-- Model of `SoundAction`: `self._player.play(file_path, volume)`. -/
  | playSound (filePath : String) (volume : Option ℚ)
deriving Repr, DecidableEq

/-- The system facts the shortcut and sound actions consult
(`shutil.which`, `Path` resolution, `Path.exists`), supplied as
parameters. -/
structure SysEnv where
  /-- Truth of `shutil.which(name) is not None`. -/
  which : String → Bool
  /-- Model of `SoundAction._resolve_path`: expanduser + absolute/relative
  resolution against the cwd, `none` on failure. -/
  resolvePath : String → Option String
  /-- Truth of `Path.exists`. -/
  pathExists : String → Bool

/-- The cross-dispatch mutable state of the five action instances owned by
the engine (`ActionEngine.__init__` constructs one instance per type):
`VolumeAction._last_value`, `CommandAction._last_values`,
`ShortcutAction._available` / `._warned`, `SoundAction._last_values`.
State living behind the effect boundary (backend caches of
`SystemVolumeController` and `_SoundPlayer`) is not modelled. -/
structure ActionStates where
  volume_last : Option Int := none
  command_last : List (Int × Int) := []
  shortcut_available : Bool := false
  shortcut_warned : Bool := false
  sound_last : List (Int × Int) := []
deriving Repr, DecidableEq

/-- Action-instance state as built by `ActionEngine.__init__`
(`ShortcutAction.__init__` probes for `xdotool`). -/
def ActionStates.init (env : SysEnv) : ActionStates :=
  { shortcut_available := env.which "xdotool" }

/-- Lookup in an `int → int` Python dict modelled as an association list. -/
def intDictGet (l : List (Int × Int)) (k : Int) : Option Int :=
  match l.find? (fun kv => kv.1 == k) with
  | some kv => some kv.2
  | none => none

/-- Assignment in an `int → int` Python dict. -/
def intDictSet (l : List (Int × Int)) (k : Int) (v : Int) : List (Int × Int) :=
  if l.any (fun kv => kv.1 == k) then
    l.map (fun kv => if kv.1 == k then (k, v) else kv)
  else l ++ [(k, v)]

/-- Model of `VolumeAction.handle_event` (`app/actions/volume.py`, lines 69-88):
debounce on `_last_value`, rescale through the node's bounds, and call
`set_level`.  Returns the recorded effect (if any) and the new
`_last_value`. -/
def volumeHandleEvent (cfg : NodeConfig) (e : MidiEvent) (last : Option Int) :
    Option Effect × Option Int :=
  match e.value with
  | none => (none, last)
  | some v =>
    if last == some v then (none, last)
    else
      let last := some v
      let input_min := pyInt (cfg.input_min.getD 0)
      let input_max := pyInt (cfg.input_max.getD 127)
      let output_min := cfg.output_min.getD 0
      let output_max := cfg.output_max.getD 1
      let target_id :=
        match cfg.target_id with
        | some t => if t == "" then none else some t
        | none => none
      let target_kind :=
        match cfg.target_kind with
        | some k => if k == "" then "default" else k
        | none => "default"
      let normalized := ((v : ℚ) - (input_min : ℚ)) / ((max 1 (input_max - input_min) : ℤ) : ℚ)
      let normalized := max 0 (min 1 normalized)
      let level := output_min + normalized * (output_max - output_min)
      (some (Effect.setLevel level target_id target_kind), last)

/-- Model of `_ensure_sequence` (`app/actions/command.py`): a list is kept, a string
is split `shlex`-style.  The splitter is modelled as whitespace splitting;
no theorem depends on quoting behaviour. -/
def ensureSequence : Option StrOrList → Option (List String)
  | none => none
  | some (StrOrList.list l) => some l
  | some (StrOrList.str s) => some ((s.split Char.isWhitespace).filter (fun w => w ≠ ""))

/-- Python `a or b` on optional argv lists, where `None` and `[]` are
falsy. -/
def pyOrList (a b : Option (List String)) : Option (List String) :=
  match a with
  | some l => if l.isEmpty then b else some l
  | none => b

/-- Model of the expression `str(command_config or "")` in the shell branch of
`CommandAction.handle_event`: `None`, `""` and `[]` collapse to `""`; a
list renders via `repr`. -/
def cmdOrEmptyStr : Option StrOrList → String
  | none => ""
  | some (StrOrList.str s) => s
  | some (StrOrList.list l) =>
      if l.isEmpty then ""
      else "[" ++ String.intercalate ", " (l.map (fun s => "'" ++ s ++ "'")) ++ "]"

/-- String rendering of an optional MIDI field for the environment block
(`str(x if x is not None else "")`). -/
def optIntStr : Option Int → String
  | none => ""
  | some v => toString v

/-- The `env.update({...})` block of `CommandAction.handle_event`; the
inherited `os.environ.copy()` base is external and not modelled. -/
def midiEnv (e : MidiEvent) (workspace_id : String) : List (String × String) :=
  [("MIDI_VALUE", optIntStr e.value),
   ("MIDI_CONTROL", optIntStr e.control),
   ("MIDI_NOTE", optIntStr e.note),
   ("MIDI_CHANNEL", optIntStr e.channel),
   ("MIDI_TYPE", e.message_type),
   ("MIDAS_WORKSPACE_ID", workspace_id)]

/-- The spawn tail of `CommandAction.handle_event` (environment block, cwd
normalization, shell/argv `Popen`), reached once the guards pass. -/
def commandSpawn (workspace_id : String) (cfg : NodeConfig) (e : MidiEvent)
    (last : List (Int × Int)) : Option Effect × List (Int × Int) :=
  let env := midiEnv e workspace_id
  let cwd :=
    match cfg.cwd with
    | some s => if s == "" then none else some s
    | none => none
  if cfg.shell then
    let command_str := cmdOrEmptyStr cfg.command
    if command_str == "" then (none, last)
    else (some (Effect.spawnShell command_str cwd env), last)
  else
    match pyOrList (ensureSequence cfg.args) (ensureSequence cfg.command) with
    | some argv =>
        if argv.isEmpty then (none, last)
        else (some (Effect.spawnArgv argv cwd env), last)
    | none => (none, last)

/-- Model of `CommandAction.handle_event` (`app/actions/command.py`, lines 35-81):
config guard, per-control debounce for `control_change` (updating
`_last_values` when the value is present), the zero-velocity guard for
`note_on` (`(event.velocity or 0) == 0`), then the spawn tail.  Returns
the recorded spawn (if any) and the new `_last_values`. -/
def commandHandleEvent (workspace_id : String) (cfg : NodeConfig)
    (e : MidiEvent) (last : List (Int × Int)) :
    Option Effect × List (Int × Int) :=
  if cfg.command.isNone && cfg.args.isNone then (none, last)
  else if e.message_type == "control_change" then
    let control := e.control.getD (-1)
    if intDictGet last control == e.value then (none, last)
    else
      let last :=
        match e.value with
        | some v => intDictSet last control v
        | none => last
      commandSpawn workspace_id cfg e last
  else if e.message_type == "note_on" then
    if e.velocity.getD 0 == 0 then (none, last)
    else commandSpawn workspace_id cfg e last
  else commandSpawn workspace_id cfg e last

/-- Model of `ScriptAction.handle_event` (`app/actions/script.py`): run the snippet
when it is a non-blank string; the `exec` itself is external and recorded
as an effect.  The action keeps no state. -/
def scriptHandleEvent (cfg : NodeConfig) (_e : MidiEvent) : Option Effect :=
  match cfg.script with
  | some s => if s.trim == "" then none else some (Effect.execScript s)
  | none => none

/-- Model of `ShortcutAction.handle_event` (`app/actions/shortcut.py`): note_off and
zero-velocity/zero-value guards, then the sequence/availability checks
(each warning at most once via `_warned`).  Returns the recorded `xdotool`
run (if any) and the new `_warned`. -/
def shortcutHandleEvent (cfg : NodeConfig) (e : MidiEvent)
    (available warned : Bool) : Option Effect × Bool :=
  if e.message_type == "note_off" then (none, warned)
  else
    let velocityBlocked : Bool :=
      if e.message_type == "note_on" then
        match (match e.velocity with | some v => some v | none => e.value) with
        | some v => v ≤ 0
        | none => false
      else false
    if velocityBlocked then (none, warned)
    else if e.value == some 0 then (none, warned)
    else
      let sequence := ((cfg.sequence.getD "")).trim
      if sequence == "" then (none, true)
      else if !available then (none, true)
      else (some (Effect.runShortcut sequence), warned)

/-- Model of `SoundAction._should_trigger` (`app/actions/sound.py`, lines 222-253):
the trigger decision together with the `_last_values` update it performs in
the `control_change` branch. -/
def soundShouldTrigger (cfg : NodeConfig) (e : MidiEvent)
    (last : List (Int × Int)) : Bool × List (Int × Int) :=
  if e.message_type == "control_change" then
    let control := e.control.getD (-1)
    if intDictGet last control == e.value then (false, last)
    else
      let last :=
        match e.value with
        | some v => intDictSet last control v
        | none => last
      let value := e.value.getD 0
      if cfg.trigger_value.isSome && some value != cfg.trigger_value then (false, last)
      else if cfg.min_value.isSome && decide (value < cfg.min_value.getD 0) then (false, last)
      else (true, last)
  else if e.message_type == "note_on" then
    let velocity := e.velocity.getD 0
    if velocity ≤ 0 then (false, last)
    else if cfg.trigger_value.isSome && some velocity != cfg.trigger_value then (false, last)
    else if cfg.min_value.isSome && decide (velocity < cfg.min_value.getD 0) then (false, last)
    else (true, last)
  else if e.message_type == "note_off" then (cfg.trigger_on_note_off, last)
  else (false, last)

/-- Model of `SoundAction.handle_event` (`app/actions/sound.py`, lines 183-206):
path configuration and existence checks, the trigger decision, the volume
normalization, and the recorded `play` call. -/
def soundHandleEvent (env : SysEnv) (cfg : NodeConfig) (e : MidiEvent)
    (last : List (Int × Int)) : Option Effect × List (Int × Int) :=
  let path_config :=
    match cfg.file with
    | some s => if s == "" then cfg.path else some s
    | none => cfg.path
  match path_config with
  | none => (none, last)
  | some p =>
    if p == "" then (none, last)
    else
      match env.resolvePath p with
      | none => (none, last)
      | some file_path =>
        if !env.pathExists file_path then (none, last)
        else
          let (trigger, last) := soundShouldTrigger cfg e last
          if !trigger then (none, last)
          else
            let volume :=
              match cfg.volume with
              | none => none
              | some v =>
                let v := max 0 (min 1 v)
                if |v - 1| ≤ 1 / 1000000 then none else some v
            (some (Effect.playSound file_path volume), last)

/-! ## Dispatch engine (`ActionEngine`, `app/actions/engine.py`) -/

/-- A visited-set signature:
`(node.id, event.channel, event.control, event.note, event.value)`
(`ActionEngine._traverse_node`, lines 133-139). -/
abbrev Sig := String × Option Int × Option Int × Option Int × Option Int

/-- The signature of a node/event pair. -/
def mkSig (node : Node) (e : MidiEvent) : Sig :=
  (node.id, e.channel, e.control, e.note, e.value)

/-- The state threaded through one dispatch: the visited-signature set of
the source plus, as instrumentation for the specification, the ordered
trace of processed signatures, the recorded external effects, and the
action-instance states. -/
structure TravState where
  visited : Finset Sig
  trace : List Sig
  effects : List Effect
  actions : ActionStates

/-- Model of `ActionEngine._process_action_node`: dispatch on the node type tag to
the registered action instance; unknown `action.*` tags are no-ops. -/
def processActionNode (env : SysEnv) (workspace_id : String) (node : Node)
    (e : MidiEvent) (st : ActionStates) : Option Effect × ActionStates :=
  if node.type == "action.volume" then
    let (eff, last) := volumeHandleEvent node.config e st.volume_last
    (eff, { st with volume_last := last })
  else if node.type == "action.script" then
    (scriptHandleEvent node.config e, st)
  else if node.type == "action.command" then
    let (eff, last) := commandHandleEvent workspace_id node.config e st.command_last
    (eff, { st with command_last := last })
  else if node.type == "action.shortcut" then
    let (eff, warned) :=
      shortcutHandleEvent node.config e st.shortcut_available st.shortcut_warned
    (eff, { st with shortcut_warned := warned })
  else if node.type == "action.sound" then
    let (eff, last) := soundHandleEvent env node.config e st.sound_last
    (eff, { st with sound_last := last })
  else (none, st)

/-- Model of `ActionEngine._node_accepts_event` (lines 206-225): the `device_ports`
filter then the `profile_id` filter (resolved first from the event-scoped
matching cache, else from the store, and re-matched). -/
def nodeAcceptsEvent (store : ControlProfileStore)
    (matching : List (String × ControlProfile)) (node : Node) (e : MidiEvent) :
    Bool :=
  (if node.config.device_ports.isEmpty then true
   else
     let ports := node.config.device_ports
     let sourceOk :=
       match e.source with
       | some s => ports.contains s
       | none => false
     sourceOk || e.aliases.any (fun a => ports.contains a))
  && (match node.config.profile_id with
      | none => true
      | some pid =>
        if pid == "" then true
        else
          match (dictGet matching pid).orElse (fun _ => store.get pid) with
          | some p => p.matchesEvent e
          | none => false)

/-- The per-dispatch context: the engine's collaborators plus the
event-scoped matching-profile cache. -/
structure EngineCtx where
  env : SysEnv
  curves : Curves
  g : NodeGraph
  store : ControlProfileStore
  matching : List (String × ControlProfile)
  workspace_id : String

mutual

/-- Model of `ActionEngine._traverse_node` (lines 125-166), with an explicit fuel
bounding the recursion depth (the source recurses without a bound; the
termination theorem below shows a fuel of `sigBound` always suffices).
Skip on a visited signature, otherwise record it and process the node:
`midi.input` re-emits the event on `message`, `logic.mapper` emits the
mapped event on `out`, `action.*` invokes the action and stops, anything
else is a no-op. -/
def traverseNode (ctx : EngineCtx) (fuel : Nat) (node : Node) (e : MidiEvent)
    (st : TravState) : Option TravState :=
  match fuel with
  | 0 => none
  | fuel' + 1 =>
    let sig := mkSig node e
    if sig ∈ st.visited then some st
    else
      let st :=
        { st with visited := insert sig st.visited, trace := st.trace ++ [sig] }
      if node.type == "midi.input" then
        goConnections ctx fuel' (ctx.g.connectionsFrom node.id (some "message")) e st
      else if node.type == "logic.mapper" then
        let mapped := applyMapper ctx.curves node.config e
        goConnections ctx fuel' (ctx.g.connectionsFrom node.id (some "out")) mapped st
      else if node.type.startsWith "action." then
        let (eff, acts) := processActionNode ctx.env ctx.workspace_id node e st.actions
        some { st with effects := st.effects ++ eff.toList, actions := acts }
      else some st
termination_by (fuel, 0)

/-- Model of `ActionEngine._propagate_from_port` (lines 183-204): walk the
connections leaving the emitting port, resolve each target, re-check
acceptance, and recurse. -/
def goConnections (ctx : EngineCtx) (fuel : Nat) (cs : List NodeConnection)
    (e : MidiEvent) (st : TravState) : Option TravState :=
  match cs with
  | [] => some st
  | c :: rest =>
    match ctx.g.getNode c.target_node with
    | none => goConnections ctx fuel rest e st
    | some target =>
      if nodeAcceptsEvent ctx.store ctx.matching target e then
        match traverseNode ctx fuel target e st with
        | none => none
        | some st' => goConnections ctx fuel rest e st'
      else goConnections ctx fuel rest e st
termination_by (fuel, cs.length + 1)

end

/-- The primary/fallback loop bodies of `ActionEngine.handle_event`:
traverse from each accepted root in order, threading the dispatch state. -/
def runRoots (ctx : EngineCtx) (fuel : Nat) :
    List Node → MidiEvent → TravState → Option TravState
  | [], _, st => some st
  | n :: ns, e, st =>
    match traverseNode ctx fuel n e st with
    | none => none
    | some st' => runRoots ctx fuel ns e st'

/-- The value returned by one modelled dispatch: the traversal roots
(`triggered_inputs`), the processed-signature trace, the recorded effects,
and the final action-instance states. -/
structure HandleResult where
  triggered : List Node
  trace : List Sig
  effects : List Effect
  states : ActionStates
deriving Repr, DecidableEq

/-- Model of `ActionEngine.handle_event` (lines 46-95): empty-graph early return,
the event-scoped matching-profile cache, the primary pass over accepting
`midi.input` nodes, and — when the primary pass accepted none — the
fallback pass over accepting nodes without incoming connections.  The
loops are modelled by first filtering the accepted roots (acceptance does
not depend on the traversal state), which also yields the returned
`triggered_inputs` list. -/
def handleEvent (env : SysEnv) (curves : Curves) (g : NodeGraph)
    (store : ControlProfileStore) (states : ActionStates) (e : MidiEvent)
    (workspace_id : String) (fuel : Nat) : Option HandleResult :=
  if g.isEmpty then some ⟨[], [], [], states⟩
  else
    let matching := store.profiles.filter (fun kv => kv.2.matchesEvent e)
    let ctx : EngineCtx := ⟨env, curves, g, store, matching, workspace_id⟩
    let st0 : TravState := ⟨∅, [], [], states⟩
    let primary :=
      (g.nodeValues).filter (fun n =>
        n.type == "midi.input" && nodeAcceptsEvent store matching n e)
    let roots :=
      if primary.isEmpty then
        (g.nodeValues).filter (fun n =>
          (g.incoming n.id).isEmpty && nodeAcceptsEvent store matching n e)
      else primary
    (runRoots ctx fuel roots e st0).map (fun st =>
      ⟨roots, st.trace, st.effects, st.actions⟩)

/-! ## A finite universe of signatures

Within one dispatch only the mapper ever builds a new event, and it only
replaces `value` by `pyRound` of a quantity clamped between its output
bounds.  Every signature inserted into the visited set therefore lives in
the finite set below, which bounds the recursion depth. -/

/-- The integers the mapper of a given configuration can emit: `pyRound` of
a rational clamped into `[output_min, max output_min output_max]`. -/
def mapperRange (cfg : NodeConfig) : Finset (Option Int) :=
  (Finset.Icc ⌊cfg.output_min.getD 0⌋
      ⌈max (cfg.output_min.getD 0) (cfg.output_max.getD 127)⌉).image some

/-- Every `value` field an event can carry during one dispatch of `e`:
`e.value` itself or a mapper output of some node of the graph. -/
def valueUniverse (g : NodeGraph) (e : MidiEvent) : Finset (Option Int) :=
  insert e.value (g.nodeValues.foldr (fun n acc => mapperRange n.config ∪ acc) ∅)

/-- Every signature one dispatch of `e` through `g` can visit. -/
def sigUniverse (g : NodeGraph) (e : MidiEvent) : Finset Sig :=
  ((g.nodeValues.map Node.id).toFinset ×ˢ valueUniverse g e).image
    (fun p => (p.1, e.channel, e.control, e.note, p.2))

/-- A recursion depth that always suffices for one dispatch. -/
def sigBound (g : NodeGraph) (e : MidiEvent) : Nat :=
  (sigUniverse g e).card + 1

/-! ## Theorems -/

/-- Claim C4: `ControlProfile.matches_event` returns true iff the event's
source equals the profile's `device_port` or the `device_port` appears in
the event's aliases, the message types agree, and every non-null profile
field among channel/control/note equals the corresponding event field (a
null field being a wildcard); consequently a profile with all three
optional fields null matches any event from its device port with its
message type. -/
theorem matchesEvent_iff_spec (p : ControlProfile) (e : MidiEvent) :
    p.matchesEvent e = true ↔
      ((e.source = some p.device_port ∨ p.device_port ∈ e.aliases) ∧
        e.message_type = p.message_type ∧
        (p.channel = none ∨ e.channel = p.channel) ∧
        (p.control = none ∨ e.control = p.control) ∧
        (p.note = none ∨ e.note = p.note)) := by
  obtain ⟨pid, pname, pdev, pmsg, pct, pch, pco, pno, pal⟩ := p
  obtain ⟨emt, ech, eco, ev, eno, evel, esrc, eal⟩ := e
  rcases pch with _ | ch <;> rcases pco with _ | co <;> rcases pno with _ | no <;>
    simp [ControlProfile.matchesEvent, List.contains, List.elem_iff]

/-- Claim C6: after `remove_node(n)` no connection of the graph references
`n` as source or as target: removing a node removes every edge touching
it (groups are also scrubbed, which this statement does not need). -/
theorem removeNode_clears_edges (g : NodeGraph) (nid : String) :
    ∀ c ∈ (g.removeNode nid).connections,
      c.source_node ≠ nid ∧ c.target_node ≠ nid := by
  intro c hc
  have := (List.mem_filter.mp hc).2
  simp only [Bool.and_eq_true, bne_iff_ne, ne_eq] at this
  exact this

/-- Witness graph for `removeNode_clears_edges`: two nodes wired to a
third; removing the third leaves the unrelated edge in place. -/
def wGraph : NodeGraph :=
  { nodes :=
      [("A", { id := "A", type := "midi.input", title := "A" }),
       ("B", { id := "B", type := "action.volume", title := "B" }),
       ("X", { id := "X", type := "action.sound", title := "X" })]
    connections :=
      [⟨"A", "message", "X", "in"⟩, ⟨"A", "message", "B", "in"⟩] }

/-- Witness: the edge surviving `remove_node("X")` on `wGraph` does not
touch `"X"`. -/
theorem removeNode_clears_edges_witness :
    NodeConnection.source_node ⟨"A", "message", "B", "in"⟩ ≠ "X" ∧
      NodeConnection.target_node ⟨"A", "message", "B", "in"⟩ ≠ "X" :=
  removeNode_clears_edges wGraph "X" ⟨"A", "message", "B", "in"⟩ (by decide)

/-- Claim C5: if some connection already enters `(tn, tp)`, then
`can_connect` into that port returns `false` together with a reason, and
`connect` returns `false` and leaves the connection list untouched. -/
theorem occupied_port_connect_fails (g : NodeGraph) (sn sp tn tp : String)
    (h : ∃ c ∈ g.connections, c.target_node = tn ∧ c.target_port = tp) :
    (g.canConnect sn sp tn tp).1 = false ∧
      ((g.canConnect sn sp tn tp).2).isSome = true ∧
      (g.connect sn sp tn tp).1 = false ∧
      (g.connect sn sp tn tp).2 = g := by
  have hany : g.connections.any
      (fun c => c.target_node == tn && c.target_port == tp) = true := by
    obtain ⟨c, hc, h1, h2⟩ := h
    exact List.any_eq_true.mpr ⟨c, hc, by simp [h1, h2]⟩
  have hcases : ((g.canConnect sn sp tn tp).2).isSome
        = !((g.canConnect sn sp tn tp).1) ∧
      ((g.canConnect sn sp tn tp).1 = true →
        g.connections.any
          (fun c => c.target_node == tn && c.target_port == tp) = false) := by
    unfold NodeGraph.canConnect
    rcases NodeGraph.getPort g sn sp with _ | s <;>
      rcases NodeGraph.getPort g tn tp with _ | t <;>
      dsimp only <;> split_ifs <;> simp_all
  have h1 : (g.canConnect sn sp tn tp).1 = false := by
    by_cases hb : (g.canConnect sn sp tn tp).1 = true
    · rw [hcases.2 hb] at hany
      exact absurd hany (by simp)
    · simpa using hb
  have h2 : ((g.canConnect sn sp tn tp).2).isSome = true := by
    rw [hcases.1, h1]
    rfl
  refine ⟨h1, h2, ?_, ?_⟩ <;>
    · unfold NodeGraph.connect
      rw [h1]
      simp

/-- Witness graph for `occupied_port_connect_fails`: `T.in` already has an
incoming edge from `R`. -/
def w5Graph : NodeGraph :=
  { nodes :=
      [("R", { id := "R", type := "midi.input", title := "R",
               outputs := [{ name := "message", direction := .output }] }),
       ("S", { id := "S", type := "midi.input", title := "S",
               outputs := [{ name := "message", direction := .output }] }),
       ("T", { id := "T", type := "action.volume", title := "T",
               inputs := [{ name := "in", direction := .input }] })]
    connections := [⟨"R", "message", "T", "in"⟩] }

/-- Witness: wiring `S.message` into the occupied `T.in` fails and leaves
the graph unchanged. -/
theorem occupied_port_connect_fails_witness :
    (w5Graph.canConnect "S" "message" "T" "in").1 = false ∧
      ((w5Graph.canConnect "S" "message" "T" "in").2).isSome = true ∧
      (w5Graph.connect "S" "message" "T" "in").1 = false ∧
      (w5Graph.connect "S" "message" "T" "in").2 = w5Graph :=
  occupied_port_connect_fails w5Graph "S" "message" "T" "in"
    ⟨⟨"R", "message", "T", "in"⟩, by decide, rfl, rfl⟩

/-- Claim C7: the mapper only ever rewrites the `value` field: every other
field of the output event equals the input's, and a `None` value passes
the event through entirely unchanged. -/
theorem applyMapper_frame (curves : Curves) (cfg : NodeConfig) (e : MidiEvent) :
    (applyMapper curves cfg e).message_type = e.message_type ∧
      (applyMapper curves cfg e).channel = e.channel ∧
      (applyMapper curves cfg e).control = e.control ∧
      (applyMapper curves cfg e).note = e.note ∧
      (applyMapper curves cfg e).velocity = e.velocity ∧
      (applyMapper curves cfg e).source = e.source ∧
      (applyMapper curves cfg e).aliases = e.aliases ∧
      (e.value = none → applyMapper curves cfg e = e) := by
  rcases hv : e.value with _ | v <;> simp [applyMapper, hv]

/-- Concrete event with a null value, for the `applyMapper_frame` witness. -/
def w7Event : MidiEvent :=
  { message_type := "note_on", channel := some 1, control := none,
    value := none, note := some 60, velocity := some 10 }

/-- The empty node configuration (every key absent). -/
def emptyCfg : NodeConfig := {}

/-- Witness: `applyMapper_frame` evaluated at a concrete null-value event. -/
theorem applyMapper_frame_witness :
    (applyMapper idCurves emptyCfg w7Event).message_type = w7Event.message_type ∧
      (applyMapper idCurves emptyCfg w7Event).channel = w7Event.channel ∧
      (applyMapper idCurves emptyCfg w7Event).control = w7Event.control ∧
      (applyMapper idCurves emptyCfg w7Event).note = w7Event.note ∧
      (applyMapper idCurves emptyCfg w7Event).velocity = w7Event.velocity ∧
      (applyMapper idCurves emptyCfg w7Event).source = w7Event.source ∧
      (applyMapper idCurves emptyCfg w7Event).aliases = w7Event.aliases ∧
      (w7Event.value = none → applyMapper idCurves emptyCfg w7Event = w7Event) :=
  applyMapper_frame idCurves emptyCfg w7Event

/-! ### The step curve with `steps = 1` (claim C2) -/

/-- Lemma: `pyRound` sends `[0, 1/2]` to `0` (Python rounds `0.5` down to the even
integer `0`). -/
theorem pyRound_of_le_half (q : ℚ) (h0 : 0 ≤ q) (h2 : q ≤ 1 / 2) :
    pyRound q = 0 := by
  have hfl : ⌊q⌋ = 0 := by
    rw [Int.floor_eq_zero_iff]
    exact Set.mem_Ico.mpr ⟨h0, by linarith⟩
  simp only [pyRound, hfl, Int.cast_zero, sub_zero]
  by_cases hlt : q < 1 / 2
  · rw [if_pos hlt]
  · have heq : q = 1 / 2 := le_antisymm h2 (not_lt.mp hlt)
    norm_num [hlt, heq]

/-- Lemma: `pyRound` sends `(1/2, 1]` to `1`. -/
theorem pyRound_of_half_lt (q : ℚ) (h1 : 1 / 2 < q) (h2 : q ≤ 1) :
    pyRound q = 1 := by
  rcases h2.lt_or_eq with hlt | heq
  · have hfl : ⌊q⌋ = 0 := by
      rw [Int.floor_eq_zero_iff]
      exact Set.mem_Ico.mpr ⟨by linarith, hlt⟩
    simp only [pyRound, hfl, Int.cast_zero, sub_zero]
    rw [if_neg (by linarith), if_pos h1]
    norm_num
  · subst heq
    norm_num [pyRound]

/-- Lemma: `pyRound` is the identity on integers. -/
theorem pyRound_intCast (n : ℤ) : pyRound ((n : ℚ)) = n := by
  simp [pyRound, Int.floor_intCast]

/-- The quantized `step` configuration with a single step and the event of
the C2 counterexample. -/
def stepOneCfg : NodeConfig := { curve := some "step", steps := some 1 }

/-- A full-scale control-change event (`value = 127`). -/
def stepOneEvent : MidiEvent :=
  { message_type := "control_change", channel := some 0, control := some 7,
    value := some 127, note := none, velocity := none }

/-- Shared evaluation of the step curve at `steps = 1`: the mapper value
collapses to one of two buckets, decided by whether the clamped normalized
value exceeds `1/2`. -/
theorem stepOne_eval (curves : Curves) (cfg : NodeConfig)
    (e : MidiEvent) (v : Int)
    (hcurve : lowerString (cfg.curve.getD "linear") = "step")
    (hsteps : cfg.steps.getD 8 ≤ 1) (hv : e.value = some v) :
    (applyMapper curves cfg e).value =
      some
        (if max 0 (min 1 (((v : ℚ) - cfg.input_min.getD 0) /
              max 1 (cfg.input_max.getD 127 - cfg.input_min.getD 0))) ≤ 1 / 2
          then pyRound (cfg.output_min.getD 0)
          else pyRound (max (cfg.output_min.getD 0) (cfg.output_max.getD 127))) := by
  have hsteps1 : max 1 (cfg.steps.getD 8) = 1 := max_eq_left hsteps
  set imin := cfg.input_min.getD 0 with himin
  set imax := cfg.input_max.getD 127 with himax
  set omin := cfg.output_min.getD 0 with homin
  set omax := cfg.output_max.getD 127 with homax
  set n := max 0 (min 1 (((v : ℚ) - imin) / max 1 (imax - imin))) with hn
  have hn0 : 0 ≤ n := le_max_left _ _
  have hn1 : n ≤ 1 := max_le (by norm_num) (min_le_left _ _)
  simp only [applyMapper, hv, hcurve, hsteps1]
  simp only [show (("step" : String) == "log") = false from rfl,
    show (("step" : String) == "exp") = false from rfl,
    show (("step" : String) == "step") = true from rfl,
    Bool.false_eq_true, if_false, if_true, Int.cast_one, mul_one, div_one]
  rcases le_or_lt n (1 / 2) with hle | hgt
  · rw [pyRound_of_le_half n hn0 hle]
    have hclamp : max omin (min omax omin) = omin :=
      max_eq_left (min_le_right omax omin)
    rw [if_pos hle]
    norm_num [hclamp]
  · rw [pyRound_of_half_lt n hgt hn1]
    have hmap : omin + 1 * (omax - omin) = omax := by ring
    rw [if_neg (not_le.mpr hgt)]
    norm_num [hmap, min_self]

/-- Claim C2 (counterexample): with `curve="step"` and `steps=1` the mapper
does *not* always yield `output_min`: at the default bounds, input value
`127` normalizes to `1.0`, `round(1.0 * 1)/1 = 1`, and the result is
`output_max = 127`, not `output_min = 0`. -/
theorem step_one_counterexample :
    stepOneCfg.output_min.getD 0 = 0 ∧
      (applyMapper idCurves stepOneCfg stepOneEvent).value = some 127 ∧
      (applyMapper idCurves stepOneCfg stepOneEvent).value ≠ some 0 := by
  have h := stepOne_eval idCurves stepOneCfg stepOneEvent 127 (by decide) (by decide) rfl
  have hval : (applyMapper idCurves stepOneCfg stepOneEvent).value = some 127 := by
    rw [h]
    have hn : max (0:ℚ) (min 1 ((((127 : Int) : ℚ) - stepOneCfg.input_min.getD 0) /
        max 1 (stepOneCfg.input_max.getD 127 - stepOneCfg.input_min.getD 0))) = 1 := by
      norm_num [stepOneCfg, max_def, min_def]
    rw [hn, if_neg (by norm_num)]
    have : max (stepOneCfg.output_min.getD 0) (stepOneCfg.output_max.getD 127)
        = ((127 : ℤ) : ℚ) := by
      norm_num [stepOneCfg, max_def]
    rw [this, pyRound_intCast]
  exact ⟨rfl, hval, by rw [hval]; simp⟩

/-- Claim C2 (amended): with `curve="step"` and `steps=1` every input
collapses to one of *two* buckets, decided by the clamped normalized
value: at most `1/2` yields `round(output_min)`, above `1/2` yields
`round(max output_min output_max)` (which is `output_max` whenever the
output bounds are ordered). -/
theorem step_one_two_buckets (curves : Curves) (cfg : NodeConfig)
    (e : MidiEvent) (v : Int)
    (hcurve : lowerString (cfg.curve.getD "linear") = "step")
    (hsteps : cfg.steps.getD 8 ≤ 1) (hv : e.value = some v) :
    (applyMapper curves cfg e).value =
      some
        (if max 0 (min 1 (((v : ℚ) - cfg.input_min.getD 0) /
              max 1 (cfg.input_max.getD 127 - cfg.input_min.getD 0))) ≤ 1 / 2
          then pyRound (cfg.output_min.getD 0)
          else pyRound (max (cfg.output_min.getD 0) (cfg.output_max.getD 127))) :=
  stepOne_eval curves cfg e v hcurve hsteps hv

/-- Witness: `step_one_two_buckets` at the concrete step-1 configuration
and the full-scale event. -/
theorem step_one_two_buckets_witness :
    (applyMapper idCurves stepOneCfg stepOneEvent).value =
      some
        (if max 0 (min 1 ((((127 : Int) : ℚ) - stepOneCfg.input_min.getD 0) /
              max 1 (stepOneCfg.input_max.getD 127 - stepOneCfg.input_min.getD 0))) ≤ 1 / 2
          then pyRound (stepOneCfg.output_min.getD 0)
          else pyRound (max (stepOneCfg.output_min.getD 0) (stepOneCfg.output_max.getD 127))) :=
  step_one_two_buckets idCurves stepOneCfg stepOneEvent 127 (by decide) (by decide) rfl

/-- A system environment with nothing installed and no resolvable paths,
for concrete witnesses. -/
def wEnv : SysEnv := ⟨fun _ => false, fun _ => none, fun _ => false⟩

/-- Claim C3: dispatching any event into a graph with no nodes returns the
empty triggered list immediately, invokes no action (empty trace, no
effects) and leaves every action-instance state unchanged. -/
theorem handleEvent_empty_graph (env : SysEnv) (curves : Curves)
    (g : NodeGraph) (store : ControlProfileStore) (states : ActionStates)
    (e : MidiEvent) (workspace_id : String) (fuel : Nat) (h : g.nodes = []) :
    handleEvent env curves g store states e workspace_id fuel =
      some ⟨[], [], [], states⟩ := by
  simp [handleEvent, NodeGraph.isEmpty, h]

/-- Witness: `handleEvent_empty_graph` on the literal empty graph. -/
theorem handleEvent_empty_graph_witness :
    handleEvent wEnv idCurves {} ⟨[]⟩ {} stepOneEvent "default" 3 =
      some ⟨[], [], [], {}⟩ :=
  handleEvent_empty_graph wEnv idCurves {} ⟨[]⟩ {} stepOneEvent "default" 3 rfl

/-- Claim C8: a Command node with a configured (non-empty) shell command:
a `note_on` event with velocity 0 spawns nothing, while velocity 64
spawns a process. -/
theorem command_velocity_gate (workspace_id : String) (cfg : NodeConfig)
    (c : String) (st : List (Int × Int)) (e0 e64 : MidiEvent)
    (hsh : cfg.shell = true) (hcmd : cfg.command = some (StrOrList.str c))
    (hc : c ≠ "")
    (h0t : e0.message_type = "note_on") (h0v : e0.velocity = some 0)
    (h64t : e64.message_type = "note_on") (h64v : e64.velocity = some 64) :
    (commandHandleEvent workspace_id cfg e0 st).1 = none ∧
      ((commandHandleEvent workspace_id cfg e64 st).1).isSome = true := by
  constructor
  · simp [commandHandleEvent, h0t, h0v, hcmd]
  · simp [commandHandleEvent, commandSpawn, cmdOrEmptyStr, h64t, h64v, hcmd,
      hsh, hc]

/-- Concrete Command-node configuration with a shell command. -/
def w8Cfg : NodeConfig := { command := some (StrOrList.str "notify-send hi"), shell := true }

/-- A `note_on` event at velocity 0. -/
def w8e0 : MidiEvent :=
  { message_type := "note_on", channel := some 0, control := none,
    value := none, note := some 60, velocity := some 0 }

/-- A `note_on` event at velocity 64. -/
def w8e64 : MidiEvent :=
  { message_type := "note_on", channel := some 0, control := none,
    value := none, note := some 60, velocity := some 64 }

/-- Witness: `command_velocity_gate` at the concrete configuration. -/
theorem command_velocity_gate_witness :
    (commandHandleEvent "default" w8Cfg w8e0 []).1 = none ∧
      ((commandHandleEvent "default" w8Cfg w8e64 []).1).isSome = true :=
  command_velocity_gate "default" w8Cfg "notify-send hi" [] w8e0 w8e64
    rfl rfl (by decide) rfl rfl rfl rfl

/-- Claim C10: the volume action's debounce is keyed on the event value
alone: whatever configurations the two events arrive with (different
controls, different nodes), if their `value` fields agree the second call
never reaches `set_level`. -/
theorem volume_debounce_on_value (cfg1 cfg2 : NodeConfig) (e1 e2 : MidiEvent)
    (st : Option Int) (h : e1.value = e2.value) :
    (volumeHandleEvent cfg2 e2 (volumeHandleEvent cfg1 e1 st).2).1 = none := by
  rcases hv : e2.value with _ | v
  · simp [volumeHandleEvent, hv]
  · have he1 : e1.value = some v := h.trans hv
    have h1 : (volumeHandleEvent cfg1 e1 st).2 = some v := by
      simp only [volumeHandleEvent, he1]
      by_cases hst : (st == some v) = true
      · simp only [hst, if_true]
        simpa using hst
      · simp [hst]
    rw [h1]
    simp [volumeHandleEvent, hv]

/-- A control-change on control 1 with value 50. -/
def w10e1 : MidiEvent :=
  { message_type := "control_change", channel := some 0, control := some 1,
    value := some 50, note := none, velocity := none }

/-- A control-change on a different control (99) with the same value 50. -/
def w10e2 : MidiEvent :=
  { message_type := "control_change", channel := some 0, control := some 99,
    value := some 50, note := none, velocity := none }

/-- Witness: two consecutive equal-value events on different controls —
the second produces no `set_level` call. -/
theorem volume_debounce_on_value_witness :
    (volumeHandleEvent emptyCfg w10e2
      (volumeHandleEvent emptyCfg w10e1 none).2).1 = none :=
  volume_debounce_on_value emptyCfg emptyCfg w10e1 w10e2 none rfl

/-! ### Profile-store loading (claim C9) -/

/-- Lemma: `find?` over the replace-in-place map of `dictSet`, at the written
key, when the key occurs. -/
theorem find_map_set {β : Type} (l : List (String × β)) (k : String) (v : β)
    (h : l.any (fun kv => kv.1 == k) = true) :
    List.find? (fun kv => kv.1 == k)
        (l.map (fun kv => if (kv.1 == k) = true then (k, v) else kv))
      = some (k, v) := by
  induction l with
  | nil => simp at h
  | cons kv rest ih =>
    rw [List.map_cons]
    by_cases hk : (kv.1 == k) = true
    · rw [if_pos hk, List.find?_cons_of_pos]
      simp
    · have hrest : rest.any (fun kv => kv.1 == k) = true := by
        simp only [List.any_cons, hk, Bool.false_or] at h
        exact h
      rw [if_neg hk, List.find?_cons_of_neg, ih hrest]
      simpa using hk

/-- Lemma: `find?` over the replace-in-place map of `dictSet`, at any other key,
is unchanged. -/
theorem find_map_set_ne {β : Type} (l : List (String × β)) (k k' : String)
    (v : β) (h : k' ≠ k) :
    List.find? (fun kv => kv.1 == k')
        (l.map (fun kv => if (kv.1 == k) = true then (k, v) else kv)) =
      List.find? (fun kv => kv.1 == k') l := by
  induction l with
  | nil => simp
  | cons kv rest ih =>
    rw [List.map_cons]
    by_cases hk : (kv.1 == k) = true
    · have hkk' : (k == k') = false := beq_eq_false_iff_ne.mpr (Ne.symm h)
      have hkv : (kv.1 == k') = false := by
        rw [beq_iff_eq.mp hk]
        exact hkk'
      rw [if_pos hk, List.find?_cons_of_neg, List.find?_cons_of_neg, ih]
      · simpa using hkv
      · simpa using hkk'
    · rw [if_neg hk]
      by_cases hkv : (kv.1 == k') = true
      · rw [List.find?_cons_of_pos, List.find?_cons_of_pos] <;> exact hkv
      · rw [List.find?_cons_of_neg, List.find?_cons_of_neg, ih] <;>
          simpa using hkv

/-- Lemma: `dictGet` after `dictSet` at the written key yields the new value. -/
theorem dictGet_dictSet_self {β : Type} (l : List (String × β)) (k : String)
    (v : β) : dictGet (dictSet l k v) k = some v := by
  unfold dictGet dictSet
  by_cases h : l.any (fun kv => kv.1 == k)
  · rw [if_pos h, find_map_set l k v h]
  · rw [if_neg h]
    have hl : List.find? (fun kv => kv.1 == k) l = none := by
      rw [List.find?_eq_none]
      intro x hx hc
      exact h (List.any_eq_true.mpr ⟨x, hx, hc⟩)
    rw [List.find?_append, hl]
    simp

/-- Lemma: `dictGet` after `dictSet` at a different key is unchanged. -/
theorem dictGet_dictSet_ne {β : Type} (l : List (String × β)) (k k' : String)
    (v : β) (h : k' ≠ k) : dictGet (dictSet l k v) k' = dictGet l k' := by
  unfold dictGet dictSet
  by_cases hany : l.any (fun kv => kv.1 == k)
  · rw [if_pos hany, find_map_set_ne l k k' v h]
  · rw [if_neg hany, List.find?_append]
    have hk : List.find? (fun kv => kv.1 == k') [(k, v)] = none := by
      have : ((k, v).1 == k') = false := beq_eq_false_iff_ne.mpr (Ne.symm h)
      simp [List.find?, this]
    rw [hk]
    cases List.find? (fun kv => kv.1 == k') l <;> simp

/-- The fold of `ControlProfileStore.load` realises last-write-wins keyed
insertion of the successfully parsed records. -/
theorem load_fold_get (data : List ProfileRecord)
    (acc : List (String × ControlProfile)) (pid : String) :
    dictGet (data.foldl (fun acc entry =>
        match loadRecord entry with
        | some p => dictSet acc p.id p
        | none => acc) acc) pid =
      match specLastWithId pid (data.filterMap loadRecord) with
      | some q => some q
      | none => dictGet acc pid := by
  induction data generalizing acc with
  | nil => simp [specLastWithId]
  | cons entry rest ih =>
    rw [List.foldl_cons, List.filterMap_cons]
    cases hload : loadRecord entry with
    | none => rw [ih]
    | some p =>
      rw [ih]
      cases hrest : specLastWithId pid (rest.filterMap loadRecord) with
      | some q => simp [specLastWithId, hrest]
      | none =>
        simp only [specLastWithId, hrest]
        by_cases hp : (p.id == pid) = true
        · rw [if_pos hp]
          have hpe : pid = p.id := (beq_iff_eq.mp hp).symm
          rw [hpe, dictGet_dictSet_self]
        · rw [if_neg hp]
          exact dictGet_dictSet_ne _ _ _ _ (fun hc => hp (beq_iff_eq.mpr hc.symm))

/-- Claim C9: `ControlProfileStore.load` replaces the store's entire
contents (the result is independent of the prior store), a record missing
the required `id` field is skipped without failing, and afterwards lookup
by id returns exactly the last successfully loaded record with that id
(later records overwrite earlier ones). -/
theorem load_replaces_skips_lastwins (s s' : ControlProfileStore)
    (data : List ProfileRecord) (pid : String) (entry : ProfileRecord) :
    s.load data = s'.load data ∧
      (s.load data).get pid = specLastWithId pid (data.filterMap loadRecord) ∧
      (entry.id = none → loadRecord entry = none) := by
  refine ⟨rfl, ?_, ?_⟩
  · show dictGet (data.foldl _ []) pid = _
    rw [load_fold_get]
    cases h : specLastWithId pid (data.filterMap loadRecord) <;> simp [dictGet]
  · intro h
    simp [loadRecord, h]

/-- A record with no `id` field. -/
def w9NoId : ProfileRecord :=
  { id := none, name := some "broken", device_port := some "dev",
    message_type := some "control_change" }

/-- A complete record with id `a`. -/
def w9A1 : ProfileRecord :=
  { id := some "a", name := some "first", device_port := some "dev",
    message_type := some "control_change" }

/-- A second complete record with the same id `a`. -/
def w9A2 : ProfileRecord :=
  { id := some "a", name := some "second", device_port := some "dev",
    message_type := some "note_on" }

/-- A store with prior contents, to witness full replacement. -/
def w9Prior : ControlProfileStore :=
  ⟨[("z", { id := "z", name := "old", device_port := "dev",
            message_type := "note_on", control_type := "button",
            channel := none, control := none, note := none })]⟩

/-- Witness: loading `[no-id, a#1, a#2]` behaves identically from an empty
and a non-empty store, and lookup of `"a"` returns the last record. -/
theorem load_replaces_skips_lastwins_witness :
    ControlProfileStore.load ⟨[]⟩ [w9NoId, w9A1, w9A2] =
        w9Prior.load [w9NoId, w9A1, w9A2] ∧
      (ControlProfileStore.load ⟨[]⟩ [w9NoId, w9A1, w9A2]).get "a" =
        specLastWithId "a" ([w9NoId, w9A1, w9A2].filterMap loadRecord) ∧
      (w9NoId.id = none → loadRecord w9NoId = none) :=
  load_replaces_skips_lastwins ⟨[]⟩ w9Prior [w9NoId, w9A1, w9A2] "a" w9NoId

/-! ### Termination and no-reprocessing of one dispatch (claim C1) -/

/-- Lemma: `pyRound` never rounds below the floor. -/
theorem floor_le_pyRound (q : ℚ) : ⌊q⌋ ≤ pyRound q := by
  simp only [pyRound]
  split_ifs <;> omega

/-- Lemma: `pyRound` never rounds above the ceiling. -/
theorem pyRound_le_ceil (q : ℚ) : pyRound q ≤ ⌈q⌉ := by
  have hup : (1 : ℚ) / 2 < q - (⌊q⌋ : ℚ) → ⌊q⌋ + 1 ≤ ⌈q⌉ := by
    intro h
    have : (⌊q⌋ : ℚ) < q := by linarith
    exact Int.lt_ceil.mpr this
  simp only [pyRound]
  split_ifs with h1 h2 h3
  · exact Int.floor_le_ceil q
  · exact hup h2
  · exact Int.floor_le_ceil q
  · have hhalf : q - (⌊q⌋ : ℚ) = 1 / 2 := le_antisymm (not_lt.mp h2) (not_lt.mp h1)
    have : (⌊q⌋ : ℚ) < q := by linarith
    exact Int.lt_ceil.mpr this

/-- Lemma: `pyRound` of a value inside `[lo, hi]` lies in `Icc ⌊lo⌋ ⌈hi⌉`. -/
theorem pyRound_mem_Icc (lo hi x : ℚ) (h1 : lo ≤ x) (h2 : x ≤ hi) :
    pyRound x ∈ Finset.Icc ⌊lo⌋ ⌈hi⌉ := by
  rw [Finset.mem_Icc]
  exact ⟨le_trans (Int.floor_mono h1) (floor_le_pyRound x),
    le_trans (pyRound_le_ceil x) (Int.ceil_mono h2)⟩

/-- Whenever the input value is present, the mapper's output value lies in
the node's `mapperRange`. -/
theorem applyMapper_value_mem (curves : Curves) (cfg : NodeConfig)
    (e : MidiEvent) (v : Int) (hv : e.value = some v) :
    (applyMapper curves cfg e).value ∈ mapperRange cfg := by
  simp only [applyMapper, hv]
  simp only [mapperRange, Finset.mem_image]
  refine ⟨_, ?_, rfl⟩
  apply pyRound_mem_Icc
  · exact le_max_left _ _
  · exact max_le (le_max_left _ _)
      (le_trans (min_le_left _ _) (le_max_right _ _))

/-- An event is *good* for a dispatch of `e0` through `g` when it differs
from `e0` at most in `value`, and its value lies in the dispatch's finite
value universe.  Every event arising during one dispatch is good. -/
def goodEvent (g : NodeGraph) (e0 e : MidiEvent) : Prop :=
  e.channel = e0.channel ∧ e.control = e0.control ∧ e.note = e0.note ∧
    e.value ∈ valueUniverse g e0

/-- The dispatched event itself is good. -/
theorem goodEvent_self (g : NodeGraph) (e : MidiEvent) : goodEvent g e e :=
  ⟨rfl, rfl, rfl, Finset.mem_insert_self _ _⟩

/-- Membership in the folded union underlying `valueUniverse`. -/
theorem mem_foldr_union (l : List Node) (n : Node) (hn : n ∈ l)
    (x : Option Int) (hx : x ∈ mapperRange n.config) :
    x ∈ l.foldr (fun nd acc => mapperRange nd.config ∪ acc) ∅ := by
  induction l with
  | nil => cases hn
  | cons hd tl ih =>
    rw [List.foldr_cons]
    rcases List.mem_cons.mp hn with rfl | hn'
    · exact Finset.mem_union_left _ hx
    · exact Finset.mem_union_right _ (ih hn')

/-- A graph node's mapper range is inside the dispatch value universe. -/
theorem mapperRange_subset_valueUniverse (g : NodeGraph) (e0 : MidiEvent)
    (n : Node) (hn : n ∈ g.nodeValues) :
    mapperRange n.config ⊆ valueUniverse g e0 := by
  intro x hx
  exact Finset.mem_insert_of_mem (mem_foldr_union g.nodeValues n hn x hx)

/-- Applying the mapper of a graph node to a good event yields a good
event. -/
theorem applyMapper_goodEvent (curves : Curves) (g : NodeGraph)
    (e0 : MidiEvent) (nd : Node) (hn : nd ∈ g.nodeValues) (e : MidiEvent)
    (hg : goodEvent g e0 e) :
    goodEvent g e0 (applyMapper curves nd.config e) := by
  obtain ⟨h1, h2, h3, h4⟩ := hg
  rcases hv : e.value with _ | v
  · simpa only [applyMapper, hv] using ⟨h1, h2, h3, h4⟩
  · refine ⟨?_, ?_, ?_, ?_⟩
    · simpa only [applyMapper, hv] using h1
    · simpa only [applyMapper, hv] using h2
    · simpa only [applyMapper, hv] using h3
    · exact mapperRange_subset_valueUniverse g e0 nd hn
        (applyMapper_value_mem curves nd.config e v hv)

/-- Signatures of graph nodes at good events live in the signature
universe. -/
theorem mkSig_mem_sigUniverse (g : NodeGraph) (e0 : MidiEvent) (node : Node)
    (hn : node ∈ g.nodeValues) (e : MidiEvent) (hg : goodEvent g e0 e) :
    mkSig node e ∈ sigUniverse g e0 := by
  obtain ⟨h1, h2, h3, h4⟩ := hg
  unfold sigUniverse mkSig
  rw [Finset.mem_image]
  refine ⟨(node.id, e.value), Finset.mem_product.mpr ⟨?_, h4⟩, ?_⟩
  · exact List.mem_toFinset.mpr (List.mem_map_of_mem Node.id hn)
  · rw [h1, h2, h3]

/-- A successful `get_node` lookup returns one of the graph's nodes. -/
theorem getNode_mem_nodeValues (g : NodeGraph) (nid : String) (node : Node)
    (h : g.getNode nid = some node) : node ∈ g.nodeValues := by
  unfold NodeGraph.getNode dictGet at h
  cases hf : g.nodes.find? (fun kv => kv.1 == nid) with
  | none => rw [hf] at h; cases h
  | some kv =>
    rw [hf] at h
    have hkv : kv.2 = node := by injection h
    rw [← hkv]
    exact List.mem_map_of_mem Prod.snd (List.mem_of_find?_eq_some hf)

/-- The instrumentation invariant of one dispatch: the processed trace has
no duplicate signature, and every traced signature has been recorded in
the visited set. -/
def traceOK (st : TravState) : Prop :=
  st.trace.Nodup ∧ ∀ s ∈ st.trace, s ∈ st.visited

/-- What one step of the traversal guarantees between an input state and
an output state: the visited set only grows, it stays inside the signature
universe, and the trace invariant is preserved. -/
def InvStep (U : Finset Sig) (st st' : TravState) : Prop :=
  st.visited ⊆ st'.visited ∧ st'.visited ⊆ U ∧ (traceOK st → traceOK st')

/-- Recording a fresh signature preserves the trace invariant. -/
theorem traceOK_insert (st : TravState) (sig : Sig) (h : sig ∉ st.visited)
    (ht : traceOK st) :
    traceOK { st with visited := insert sig st.visited,
                      trace := st.trace ++ [sig] } := by
  obtain ⟨hnd, hsub⟩ := ht
  constructor
  · rw [List.nodup_append]
    refine ⟨hnd, List.nodup_singleton _, ?_⟩
    intro s hs hs'
    rw [List.mem_singleton.mp hs'] at hs
    exact h (hsub _ hs)
  · intro s hs
    rcases List.mem_append.mp hs with hs | hs
    · exact Finset.mem_insert_of_mem (hsub s hs)
    · rw [List.mem_singleton.mp hs]
      exact Finset.mem_insert_self _ _

/-- Lemma: `InvStep` composes. -/
theorem InvStep.comp {U : Finset Sig} {st st1 st2 : TravState}
    (h1 : InvStep U st st1) (h2 : InvStep U st1 st2) : InvStep U st st2 :=
  ⟨h1.1.trans h2.1, h2.2.1, fun ht => h2.2.2 (h1.2.2 ht)⟩

/-- If every `traverseNode` call at this fuel satisfies `InvStep`, so does
every `goConnections` call at the same fuel (induction along the
connection list). -/
theorem goConns_inv_of (ctx : EngineCtx) (e0 : MidiEvent) (fuel : Nat)
    (htrav : ∀ node e st st', traverseNode ctx fuel node e st = some st' →
      node ∈ ctx.g.nodeValues → goodEvent ctx.g e0 e →
      st.visited ⊆ sigUniverse ctx.g e0 →
      InvStep (sigUniverse ctx.g e0) st st') :
    ∀ cs e st st', goConnections ctx fuel cs e st = some st' →
      goodEvent ctx.g e0 e → st.visited ⊆ sigUniverse ctx.g e0 →
      InvStep (sigUniverse ctx.g e0) st st' := by
  intro cs
  induction cs with
  | nil =>
    intro e st st' h hg hsub
    rw [goConnections] at h
    injection h with h
    subst h
    exact ⟨subset_rfl, hsub, id⟩
  | cons c rest ih =>
    intro e st st' h hg hsub
    rw [goConnections] at h
    cases hgn : ctx.g.getNode c.target_node with
    | none =>
      simp only [hgn] at h
      exact ih e st st' h hg hsub
    | some target =>
      simp only [hgn] at h
      by_cases hacc : nodeAcceptsEvent ctx.store ctx.matching target e = true
      · rw [if_pos hacc] at h
        cases htv : traverseNode ctx fuel target e st with
        | none => rw [htv] at h; cases h
        | some st1 =>
          rw [htv] at h
          have i1 := htrav target e st st1 htv
            (getNode_mem_nodeValues _ _ _ hgn) hg hsub
          have i2 := ih e st1 st' h hg i1.2.1
          exact i1.comp i2
      · rw [if_neg hacc] at h
        exact ih e st st' h hg hsub

/-- Every successful `traverseNode` call starting from a graph node, a
good event, and a visited set inside the universe satisfies `InvStep`. -/
theorem dispatch_inv (ctx : EngineCtx) (e0 : MidiEvent) :
    ∀ fuel : Nat, ∀ node e st st',
      traverseNode ctx fuel node e st = some st' →
      node ∈ ctx.g.nodeValues → goodEvent ctx.g e0 e →
      st.visited ⊆ sigUniverse ctx.g e0 →
      InvStep (sigUniverse ctx.g e0) st st' := by
  intro fuel
  induction fuel with
  | zero =>
    intro node e st st' h
    rw [traverseNode] at h
    cases h
  | succ n ih =>
    intro node e st st' h hn hg hsub
    rw [traverseNode] at h
    by_cases hsig : mkSig node e ∈ st.visited
    · rw [if_pos hsig] at h
      injection h with h
      subst h
      exact ⟨subset_rfl, hsub, id⟩
    · rw [if_neg hsig] at h
      have hsub1 : (insert (mkSig node e) st.visited : Finset Sig) ⊆
          sigUniverse ctx.g e0 :=
        Finset.insert_subset_iff.mpr
          ⟨mkSig_mem_sigUniverse ctx.g e0 node hn e hg, hsub⟩
      have hInv1 : InvStep (sigUniverse ctx.g e0) st
          { st with visited := insert (mkSig node e) st.visited,
                    trace := st.trace ++ [mkSig node e] } :=
        ⟨Finset.subset_insert _ _, hsub1, traceOK_insert st _ hsig⟩
      by_cases ht1 : (node.type == "midi.input") = true
      · simp only [ht1, if_true] at h
        exact hInv1.comp (goConns_inv_of ctx e0 n ih _ e _ st' h hg hsub1)
      · have ht1' : (node.type == "midi.input") = false := by simpa using ht1
        simp only [ht1', Bool.false_eq_true, if_false] at h
        by_cases ht2 : (node.type == "logic.mapper") = true
        · simp only [ht2, if_true] at h
          have hg' := applyMapper_goodEvent ctx.curves ctx.g e0 node hn e hg
          exact hInv1.comp (goConns_inv_of ctx e0 n ih _ _ _ st' h hg' hsub1)
        · have ht2' : (node.type == "logic.mapper") = false := by simpa using ht2
          simp only [ht2', Bool.false_eq_true, if_false] at h
          by_cases ht3 : node.type.startsWith "action." = true
          · simp only [ht3, if_true] at h
            injection h with h
            subst h
            exact ⟨Finset.subset_insert _ _, hsub1,
              fun ht => traceOK_insert st _ hsig ht⟩
          · have ht3' : node.type.startsWith "action." = false := by simpa using ht3
            simp only [ht3', Bool.false_eq_true, if_false] at h
            injection h with h
            subst h
            exact hInv1

/-- If every `traverseNode` call at this fuel both satisfies `InvStep` and
succeeds under the cardinality bound, then every `goConnections` call at
the same fuel succeeds under the same bound. -/
theorem goConns_success_of (ctx : EngineCtx) (e0 : MidiEvent) (fuel : Nat)
    (htrav_inv : ∀ node e st st', traverseNode ctx fuel node e st = some st' →
      node ∈ ctx.g.nodeValues → goodEvent ctx.g e0 e →
      st.visited ⊆ sigUniverse ctx.g e0 →
      InvStep (sigUniverse ctx.g e0) st st')
    (htrav_succ : ∀ node e st, node ∈ ctx.g.nodeValues →
      goodEvent ctx.g e0 e → st.visited ⊆ sigUniverse ctx.g e0 →
      (sigUniverse ctx.g e0 \ st.visited).card < fuel →
      (traverseNode ctx fuel node e st).isSome = true) :
    ∀ cs e st, goodEvent ctx.g e0 e →
      st.visited ⊆ sigUniverse ctx.g e0 →
      (sigUniverse ctx.g e0 \ st.visited).card < fuel →
      (goConnections ctx fuel cs e st).isSome = true := by
  intro cs
  induction cs with
  | nil =>
    intro e st _ _ _
    rw [goConnections]
    rfl
  | cons c rest ih =>
    intro e st hg hsub hcard
    rw [goConnections]
    cases hgn : ctx.g.getNode c.target_node with
    | none =>
      simp only [hgn]
      exact ih e st hg hsub hcard
    | some target =>
      simp only [hgn]
      by_cases hacc : nodeAcceptsEvent ctx.store ctx.matching target e = true
      · rw [if_pos hacc]
        have hs := htrav_succ target e st
          (getNode_mem_nodeValues _ _ _ hgn) hg hsub hcard
        cases htv : traverseNode ctx fuel target e st with
        | none => rw [htv] at hs; cases hs
        | some st1 =>
          simp only [htv]
          have hi := htrav_inv target e st st1 htv
            (getNode_mem_nodeValues _ _ _ hgn) hg hsub
          apply ih e st1 hg hi.2.1
          have hss : sigUniverse ctx.g e0 \ st1.visited ⊆
              sigUniverse ctx.g e0 \ st.visited := by
            intro x hx
            rw [Finset.mem_sdiff] at hx ⊢
            exact ⟨hx.1, fun hc => hx.2 (hi.1 hc)⟩
          exact lt_of_le_of_lt (Finset.card_le_card hss) hcard
      · rw [if_neg hacc]
        exact ih e st hg hsub hcard

/-- With fuel exceeding the number of unvisited universe signatures,
`traverseNode` never exhausts its fuel. -/
theorem dispatch_success (ctx : EngineCtx) (e0 : MidiEvent) :
    ∀ fuel : Nat, ∀ node e st, node ∈ ctx.g.nodeValues →
      goodEvent ctx.g e0 e → st.visited ⊆ sigUniverse ctx.g e0 →
      (sigUniverse ctx.g e0 \ st.visited).card < fuel →
      (traverseNode ctx fuel node e st).isSome = true := by
  intro fuel
  induction fuel with
  | zero =>
    intro node e st _ _ _ hcard
    exact absurd hcard (Nat.not_lt_zero _)
  | succ n ih =>
    intro node e st hn hg hsub hcard
    rw [traverseNode]
    by_cases hsig : mkSig node e ∈ st.visited
    · rw [if_pos hsig]
      rfl
    · rw [if_neg hsig]
      have hmemU := mkSig_mem_sigUniverse ctx.g e0 node hn e hg
      have hsub1 : (insert (mkSig node e) st.visited : Finset Sig) ⊆
          sigUniverse ctx.g e0 :=
        Finset.insert_subset_iff.mpr ⟨hmemU, hsub⟩
      have hmem : mkSig node e ∈ sigUniverse ctx.g e0 \ st.visited :=
        Finset.mem_sdiff.mpr ⟨hmemU, hsig⟩
      have hcard1 :
          (sigUniverse ctx.g e0 \ insert (mkSig node e) st.visited).card < n := by
        have herase : sigUniverse ctx.g e0 \ insert (mkSig node e) st.visited =
            (sigUniverse ctx.g e0 \ st.visited).erase (mkSig node e) := by
          ext x
          simp only [Finset.mem_sdiff, Finset.mem_insert, Finset.mem_erase]
          tauto
        rw [herase, Finset.card_erase_of_mem hmem]
        have hpos : 0 < (sigUniverse ctx.g e0 \ st.visited).card :=
          Finset.card_pos.mpr ⟨_, hmem⟩
        omega
      by_cases ht1 : (node.type == "midi.input") = true
      · simp only [ht1, if_true]
        exact goConns_success_of ctx e0 n (dispatch_inv ctx e0 n) ih
          _ e _ hg hsub1 hcard1
      · have ht1' : (node.type == "midi.input") = false := by simpa using ht1
        simp only [ht1', Bool.false_eq_true, if_false]
        by_cases ht2 : (node.type == "logic.mapper") = true
        · simp only [ht2, if_true]
          have hg' := applyMapper_goodEvent ctx.curves ctx.g e0 node hn e hg
          exact goConns_success_of ctx e0 n (dispatch_inv ctx e0 n) ih
            _ _ _ hg' hsub1 hcard1
        · have ht2' : (node.type == "logic.mapper") = false := by simpa using ht2
          simp only [ht2', Bool.false_eq_true, if_false]
          by_cases ht3 : node.type.startsWith "action." = true
          · simp only [ht3, if_true]
            rfl
          · have ht3' : node.type.startsWith "action." = false := by simpa using ht3
            simp only [ht3', Bool.false_eq_true, if_false]
            rfl

/-- Running a list of roots succeeds under the cardinality bound and
preserves the trace invariant. -/
theorem runRoots_success (ctx : EngineCtx) (e0 : MidiEvent) (fuel : Nat) :
    ∀ roots e st, (∀ nd ∈ roots, nd ∈ ctx.g.nodeValues) →
      goodEvent ctx.g e0 e → st.visited ⊆ sigUniverse ctx.g e0 →
      (sigUniverse ctx.g e0 \ st.visited).card < fuel → traceOK st →
      ∃ st', runRoots ctx fuel roots e st = some st' ∧ traceOK st' := by
  intro roots
  induction roots with
  | nil =>
    intro e st _ _ _ _ ht
    exact ⟨st, rfl, ht⟩
  | cons nd rest ih =>
    intro e st hroots hg hsub hcard ht
    have hs := dispatch_success ctx e0 fuel nd e st
      (hroots nd (List.mem_cons_self _ _)) hg hsub hcard
    cases htv : traverseNode ctx fuel nd e st with
    | none => rw [htv] at hs; cases hs
    | some st1 =>
      have hi := dispatch_inv ctx e0 fuel nd e st st1 htv
        (hroots nd (List.mem_cons_self _ _)) hg hsub
      have hcard1 : (sigUniverse ctx.g e0 \ st1.visited).card < fuel := by
        have hss : sigUniverse ctx.g e0 \ st1.visited ⊆
            sigUniverse ctx.g e0 \ st.visited := by
          intro x hx
          rw [Finset.mem_sdiff] at hx ⊢
          exact ⟨hx.1, fun hc => hx.2 (hi.1 hc)⟩
        exact lt_of_le_of_lt (Finset.card_le_card hss) hcard
      obtain ⟨st', h', ht'⟩ := ih e st1
        (fun x hx => hroots x (List.mem_cons_of_mem _ hx)) hg hi.2.1 hcard1
        (hi.2.2 ht)
      refine ⟨st', ?_, ht'⟩
      rw [runRoots, htv]
      exact h'

/-- Claim C1: for every graph (cyclic ones included), profile store, action
state and event, one dispatch terminates: at the explicit fuel
`sigBound g e` the modelled `handle_event` returns a result (it never
exhausts the fuel), and within that single call no node is processed twice
for the same `(channel, control, note, value)` signature — the processed
trace is duplicate-free. -/
theorem handleEvent_terminates_and_visits_once (env : SysEnv)
    (curves : Curves) (g : NodeGraph) (store : ControlProfileStore)
    (states : ActionStates) (e : MidiEvent) (workspace_id : String) :
    ∃ r, handleEvent env curves g store states e workspace_id (sigBound g e) =
        some r ∧ r.trace.Nodup := by
  by_cases hemp : g.isEmpty = true
  · refine ⟨⟨[], [], [], states⟩, ?_, List.nodup_nil⟩
    rw [handleEvent, if_pos hemp]
  · rw [handleEvent, if_neg hemp]
    set matching := store.profiles.filter (fun kv => kv.2.matchesEvent e) with hm
    set ctx : EngineCtx := ⟨env, curves, g, store, matching, workspace_id⟩ with hctx
    set primary := g.nodeValues.filter (fun n =>
      n.type == "midi.input" && nodeAcceptsEvent store matching n e) with hp
    set roots := (if primary.isEmpty then
        g.nodeValues.filter (fun n =>
          (g.incoming n.id).isEmpty && nodeAcceptsEvent store matching n e)
      else primary) with hr
    have hroots : ∀ nd ∈ roots, nd ∈ g.nodeValues := by
      intro nd hnd
      rw [hr] at hnd
      by_cases hpe : primary.isEmpty = true
      · rw [if_pos hpe] at hnd
        exact List.mem_of_mem_filter hnd
      · rw [if_neg hpe] at hnd
        rw [hp] at hnd
        exact List.mem_of_mem_filter hnd
    have hcard : (sigUniverse g e \ (∅ : Finset Sig)).card < sigBound g e := by
      rw [Finset.sdiff_empty, sigBound]
      omega
    obtain ⟨st', hrun, hok⟩ := runRoots_success ctx e (sigBound g e) roots e
      ⟨∅, [], [], states⟩ hroots (goodEvent_self g e) (by simp) hcard
      ⟨List.nodup_nil, by simp⟩
    refine ⟨⟨roots, st'.trace, st'.effects, st'.actions⟩, ?_, hok.1⟩
    have hfin : Option.map
        (fun st : TravState =>
          (⟨roots, st.trace, st.effects, st.actions⟩ : HandleResult))
        (runRoots ctx (sigBound g e) roots e ⟨∅, [], [], states⟩) =
        some ⟨roots, st'.trace, st'.effects, st'.actions⟩ := by
      rw [hrun]
      rfl
    exact hfin

end Midas
